import Mathlib

/-!
Shallow embedding of the `shttp` package (Go): context-carried abort/redirect
signals, trace/metric/log enable flags, the startup-token validation of hook
results, the base/connection context folds, the outbound call wrapper, the
trace-header merge, and the metric label extractor.

A Go `context.Context` is an immutable chain of key/value attachments;
`context.WithValue` makes a child holding one new pair and `ctx.Value key`
returns the value of the nearest ancestor pair whose key compares equal to
`key` under Go interface equality (equal dynamic types and equal values).
We model a context as a list of pairs, most recent first.

Go interface equality forces one important identification: `http.go` declares

  type ctxKeyType struct{}
  var ( ctxMetricKey ctxKeyType; ctxTraceKey ctxKeyType; ctxLogKey ctxKeyType )

All three variables are the zero value of the same empty struct type, so as
interface values they are EQUAL: `ctxMetricKey == ctxTraceKey` holds in Go,
and a value stored under one is found when looking up another. The embedding
therefore gives the three names one key constructor `ctxKeyTypeVal`. The
abort key and the startup key have their own (distinct) struct types, and the
external `solu` trace collaborator keeps its keys in its own package, so those
are distinct constructors.
-/

/-- One Go interface value used as a context key, up to Go interface
equality. `ctxKeyTypeVal` is the shared value of `ctxMetricKey`,
`ctxTraceKey` and `ctxLogKey` (see the file comment). `soluTraceKeyVal` and
`soluSpanKeyVal` model the external solu package's trace-id and span-id
attachment keys. -/
inductive CtxKey where
  | ctxKeyTypeVal
  | abortContextKeyVal
  | startupContextKeyVal
  | soluTraceKeyVal
  | soluSpanKeyVal
deriving DecidableEq, Repr

/-- `abortValueType` from the source: status, reason, redirect flag. -/
structure AbortValue where
  status : Int
  reason : String
  redirect : Bool
deriving DecidableEq, Repr

/-- A value attached to a context. `abortVal` carries an `Option AbortValue`
because the Go code stores a pointer `*abortValueType` (which could be nil);
`intVal` is the int64 startup timestamp; `strVal` a solu trace/span id. -/
inductive CtxVal where
  | boolVal (b : Bool)
  | abortVal (a : Option AbortValue)
  | intVal (n : Int)
  | strVal (s : String)
deriving DecidableEq, Repr

/-- A context: key/value attachments, most recent first. -/
abbrev Ctx := List (CtxKey × CtxVal)

/-- `context.Background()`: the empty root context. -/
def ctxBackground : Ctx := []

/-- `context.WithValue ctx k v`: child context with one more attachment. -/
def withValue (ctx : Ctx) (k : CtxKey) (v : CtxVal) : Ctx := (k, v) :: ctx

/-- `ctx.Value k`: the most recently attached value for a key equal to `k`,
or none. -/
def ctxValue (ctx : Ctx) (k : CtxKey) : Option CtxVal :=
  match ctx.find? (fun p => decide (p.1 = k)) with
  | some p => some p.2
  | none => none

/-- `EnableMetric` from http.go: attaches `true` under `ctxMetricKey`
(whose interface value is `ctxKeyTypeVal`). -/
def EnableMetric (ctx : Ctx) : Ctx := withValue ctx .ctxKeyTypeVal (.boolVal true)

/-- `DisableMetric` from http.go. -/
def DisableMetric (ctx : Ctx) : Ctx := withValue ctx .ctxKeyTypeVal (.boolVal false)

/-- `EnableTrace` from http.go: attaches `true` under `ctxTraceKey`
(whose interface value is `ctxKeyTypeVal`). -/
def EnableTrace (ctx : Ctx) : Ctx := withValue ctx .ctxKeyTypeVal (.boolVal true)

/-- `DisableTrace` from http.go. -/
def DisableTrace (ctx : Ctx) : Ctx := withValue ctx .ctxKeyTypeVal (.boolVal false)

/-- `EnableLog` from http.go: attaches `true` under `ctxLogKey`
(whose interface value is `ctxKeyTypeVal`). -/
def EnableLog (ctx : Ctx) : Ctx := withValue ctx .ctxKeyTypeVal (.boolVal true)

/-- `DisableLog` from http.go. -/
def DisableLog (ctx : Ctx) : Ctx := withValue ctx .ctxKeyTypeVal (.boolVal false)

/-- `hasEnabledTrace` from http.go: look up `ctxTraceKey`; absent or
non-bool reads as false, else the stored bool. -/
def hasEnabledTrace (ctx : Ctx) : Bool :=
  match ctxValue ctx .ctxKeyTypeVal with
  | some (.boolVal b) => b
  | _ => false

/-- `abortDefaultReason` from the source. -/
def abortDefaultReason : String := "Server encounter an error"

/-- `isAborted`: the value under the abort key must be a non-nil
`*abortValueType` with non-zero status; a failed type assertion (absent or
other-typed value) or a nil pointer reads as not aborted. -/
def isAborted (ctx : Ctx) : Bool :=
  match ctxValue ctx .abortContextKeyVal with
  | some (.abortVal (some v)) => decide (v.status ≠ 0)
  | _ => false

/-- `Abort`: attach status 500 (`http.StatusInternalServerError`) with the
default reason. -/
def Abort (ctx : Ctx) : Ctx :=
  withValue ctx .abortContextKeyVal (.abortVal (some ⟨500, abortDefaultReason, false⟩))

/-- `AbortWithStatus`. -/
def AbortWithStatus (ctx : Ctx) (status : Int) : Ctx :=
  withValue ctx .abortContextKeyVal (.abortVal (some ⟨status, abortDefaultReason, false⟩))

/-- `AbortWithStatusReason`. -/
def AbortWithStatusReason (ctx : Ctx) (status : Int) (reason : String) : Ctx :=
  withValue ctx .abortContextKeyVal (.abortVal (some ⟨status, reason, false⟩))

/-- `AbortWithError`: the error is modelled as `Option String` (nil error or
its message); reason is the message when non-nil, else the empty string. -/
def AbortWithError (ctx : Ctx) (status : Int) (err : Option String) : Ctx :=
  let reason := match err with
    | some msg => msg
    | none => ""
  withValue ctx .abortContextKeyVal (.abortVal (some ⟨status, reason, false⟩))

/-- `Redirect`: attach status, reason = path, redirect = true. -/
def Redirect (ctx : Ctx) (status : Int) (path : String) : Ctx :=
  withValue ctx .abortContextKeyVal (.abortVal (some ⟨status, path, true⟩))

/-- `isValidContext ctx ts...` from the source: false when the context is
nil, when no startup value is present, when it is not a positive int64, or
when an expected timestamp is supplied (`ts` non-empty) and the stored token
differs from `ts[0]`; otherwise true. The Go context argument may be a nil
interface, hence `Option Ctx`; the variadic int64 list is a `List Int`. -/
def isValidContext (octx : Option Ctx) (ts : List Int) : Bool :=
  match octx with
  | none => false
  | some ctx =>
    match ctxValue ctx .startupContextKeyVal with
    | none => false
    | some (.intVal start) =>
      if start ≤ 0 then false
      else
        match ts with
        | [] => true
        | t :: _ => decide (start = t)
    | some _ => false

/-- `ContextHook`: a hook receives a context and returns one; a Go hook may
return a nil context interface, hence `Option Ctx`. -/
abbrev ContextHook := Ctx → Option Ctx

/-- One step of the hook fold in `baseContext`/`connContext`: run the hook,
validate its candidate against the startup timestamp, adopt it on success
and keep the prior accumulator on failure (`continue`). A nil candidate
fails `isValidContext` and is likewise kept out. -/
def contextStep (startTime : Int) (ctx : Ctx) (fn : ContextHook) : Ctx :=
  match fn ctx with
  | none => ctx
  | some fnCtx => if isValidContext (some fnCtx) [startTime] then fnCtx else ctx

/-- The `for _, fn := range hooks` loop of both context builders: a left
fold of `contextStep` over the hook list in registration order. -/
def runHooks (startTime : Int) (hooks : List ContextHook) (ctx : Ctx) : Ctx :=
  hooks.foldl (contextStep startTime) ctx

/-- `baseContext` closure from `ListenAndServe`: fresh background context,
stamped with the startup timestamp, then the fold over the base hooks. -/
def baseContext (startTime : Int) (baseHooks : List ContextHook) : Ctx :=
  runHooks startTime baseHooks
    (withValue ctxBackground .startupContextKeyVal (.intVal startTime))

/-- `connContext` closure from `ListenAndServe`: the fold over the
connection hooks, starting from the given (base) context. -/
def connContext (startTime : Int) (connHooks : List ContextHook) (ctx : Ctx) : Ctx :=
  runHooks startTime connHooks ctx

/-- HTTP headers, modelled as an association list of post-canonicalization
keys (every access in this package uses the one constant key, so both
`Get` and `Set` canonicalize identically). -/
abbrev Header := List (String × String)

/-- `Header.Get`: first value for the key, or "" when absent. -/
def headerGet (h : Header) (k : String) : String :=
  match h.find? (fun p => decide (p.1 = k)) with
  | some p => p.2
  | none => ""

/-- `Header.Set`: replace any existing entries for the key with the single
new one. -/
def headerSet (h : Header) (k : String) (v : String) : Header :=
  (k, v) :: h.filter (fun p => decide (p.1 ≠ k))

/-- `TraceparentHeader` constant. -/
def TraceparentHeader : String := "traceparent"

/-- The fields of `*http.Request` this package reads: method, host, URL
path and headers. -/
structure Request where
  method : String
  host : String
  urlPath : String
  header : Header
deriving DecidableEq, Repr

/-- The fields of `*http.Response` this package reads: status code, headers
and the originating request pointer (`res.Request`, possibly nil). -/
structure Response where
  statusCode : Int
  header : Header
  request : Option Request
deriving DecidableEq, Repr

/-- A non-nil `*http.Client`'s `Do` method: from the (possibly mutated)
request to a response-pointer/error pair. -/
abbrev Client := Request → Option Response × Option String

/-- The trace-header injection inlined in `doWithClient`: when tracing is
enabled on the context and the request carries no traceparent value yet,
set the header to `solu.TraceparentValue ctx` (the external collaborator,
passed in as `tpv`); otherwise leave the request untouched. -/
def injectTraceHeader (tpv : Ctx → String) (ctx : Ctx) (req : Request) : Request :=
  if hasEnabledTrace ctx then
    if headerGet req.header TraceparentHeader = "" then
      { req with header := headerSet req.header TraceparentHeader (tpv ctx) }
    else req
  else req

/-- `doWithClient`: nil request and nil client are rejected with error
values before any call happens; otherwise the client is invoked on the
trace-injected request and its result returned verbatim. Errors are
modelled as `Option String` holding `err.Error()`. -/
def doWithClient (tpv : Ctx → String) (ctx : Ctx) (req : Option Request)
    (client : Option Client) : Option Response × Option String :=
  match req with
  | none => (none, some "invalid request")
  | some req =>
    match client with
    | none => (none, some "invalid client")
    | some client => client (injectTraceHeader tpv ctx req)

/-- `Do`: `doWithClient` with `http.DefaultClient`, which is a non-nil
client supplied here as `defaultClient`. -/
def Do (tpv : Ctx → String) (defaultClient : Client) (ctx : Ctx)
    (req : Option Request) : Option Response × Option String :=
  doWithClient tpv ctx req (some defaultClient)

/-- `DoClient`. -/
def DoClient (tpv : Ctx → String) (ctx : Ctx) (req : Option Request)
    (client : Option Client) : Option Response × Option String :=
  doWithClient tpv ctx req client

/-- `solu.TraceID` (external collaborator, modelled per spec section 3:
"unset" is the empty string): the string attached under solu's trace key,
or "" when absent. -/
def TraceID (ctx : Ctx) : String :=
  match ctxValue ctx .soluTraceKeyVal with
  | some (.strVal s) => s
  | _ => ""

/-- `solu.SpanID` (external collaborator). -/
def SpanID (ctx : Ctx) : String :=
  match ctxValue ctx .soluSpanKeyVal with
  | some (.strVal s) => s
  | _ => ""

/-- `solu.TraceWith` (external collaborator): attach a trace id. -/
def TraceWith (ctx : Ctx) (tid : String) : Ctx :=
  withValue ctx .soluTraceKeyVal (.strVal tid)

/-- `solu.SpanWith` (external collaborator): attach a span id. -/
def SpanWith (ctx : Ctx) (sid : String) : Ctx :=
  withValue ctx .soluSpanKeyVal (.strVal sid)

/-- `mergeTrace`: the external parser `solu.ParseTraceparent` is passed in
as `parse` (none = parse error, some (tid, sid) = success). Nil response,
empty header or parse failure return the context unchanged; on success the
trace id is attached only when the context has none, and then the span id
only when the (possibly updated) context has none. -/
def mergeTrace (parse : String → Option (String × String)) (ctx : Ctx)
    (res : Option Response) : Ctx :=
  match res with
  | none => ctx
  | some res =>
    let header := headerGet res.header TraceparentHeader
    if header = "" then ctx
    else
      match parse header with
      | none => ctx
      | some (tid, sid) =>
        let ctx1 := if TraceID ctx = "" then TraceWith ctx tid else ctx
        let ctx2 := if SpanID ctx1 = "" then SpanWith ctx1 sid else ctx1
        ctx2

/-- `InheritTrace`: merge into a fresh background context. -/
def InheritTrace (parse : String → Option (String × String))
    (res : Option Response) : Ctx :=
  mergeTrace parse ctxBackground res

/-- `FulfillTrace`: merge into the caller's context. -/
def FulfillTrace (parse : String → Option (String × String)) (ctx : Ctx)
    (res : Option Response) : Ctx :=
  mergeTrace parse ctx res

/-- `time.Duration.Milliseconds`: a duration is int64 nanoseconds and
`Milliseconds` divides by 10^6 truncating toward zero (Go integer
division), which is `Int.tdiv`. -/
def durationMilliseconds (dur : Int) : Int := Int.tdiv dur 1000000

/-- `metricLabels`: fall back to the response's originating request when
the request is nil; nil when still nil; otherwise the 5 labels method,
host, URL path, status code (0 when the response is nil) and whole
milliseconds, the last two via Go decimal formatting (`toString` on `Int`
agrees with `strconv.Itoa`/`FormatInt` base 10). -/
def metricLabels (req0 : Option Request) (res : Option Response) (dur : Int) :
    Option (List String) :=
  let req1 : Option Request :=
    match req0, res with
    | none, some r => r.request
    | _, _ => req0
  match req1 with
  | none => none
  | some req =>
    let statusCode : Int :=
      match res with
      | some r => r.statusCode
      | none => 0
    some [req.method, req.host, req.urlPath, toString statusCode,
      toString (durationMilliseconds dur)]

/-! Helper lemmas about context and header lookup. -/

/-- Looking up the key just attached returns the attached value. -/
theorem ctxValue_withValue_self (ctx : Ctx) (k : CtxKey) (v : CtxVal) :
    ctxValue (withValue ctx k v) k = some v := by
  simp [ctxValue, withValue]

/-- Attaching under a different key leaves a lookup unchanged. -/
theorem ctxValue_withValue_ne (ctx : Ctx) (k k' : CtxKey) (v : CtxVal)
    (h : ¬ k' = k) : ctxValue (withValue ctx k v) k' = ctxValue ctx k' := by
  have hk : ¬ k = k' := fun hh => h hh.symm
  simp [ctxValue, withValue, hk]

/-- `find?` for one key ignores a `filter` that removes a different key. -/
theorem find?_filter_keep (h : Header) (k k' : String) (hne : k' ≠ k) :
    List.find? (fun p => decide (p.1 = k'))
        (List.filter (fun p => decide (p.1 ≠ k)) h) =
      List.find? (fun p => decide (p.1 = k')) h := by
  induction h with
  | nil => rfl
  | cons a t ih =>
    by_cases ha : a.1 = k
    · have h2 : ¬ a.1 = k' := fun hh => hne (hh.symm.trans ha)
      rw [List.filter_cons_of_neg (by simp [ha]),
        List.find?_cons_of_neg _ (by simp [h2]), ih]
    · rw [List.filter_cons_of_pos (by simp [ha])]
      by_cases hk' : a.1 = k'
      · rw [List.find?_cons_of_pos _ (by simp [hk']),
          List.find?_cons_of_pos _ (by simp [hk'])]
      · rw [List.find?_cons_of_neg _ (by simp [hk']),
          List.find?_cons_of_neg _ (by simp [hk']), ih]

/-- `Get` after `Set` of the same key returns the new value. -/
theorem headerGet_headerSet_self (h : Header) (k v : String) :
    headerGet (headerSet h k v) k = v := by
  simp [headerGet, headerSet]

/-- `Get` of a different key is unchanged by `Set`. -/
theorem headerGet_headerSet_ne (h : Header) (k k' v : String) (hne : k' ≠ k) :
    headerGet (headerSet h k v) k' = headerGet h k' := by
  have hk : ¬ k = k' := fun hh => hne hh.symm
  unfold headerGet headerSet
  rw [List.find?_cons_of_neg _ (by simp [hk]), find?_filter_keep h k k' hne]

/-- `TraceID` reads back the id attached by `TraceWith`. -/
theorem TraceID_TraceWith (ctx : Ctx) (t : String) :
    TraceID (TraceWith ctx t) = t := by
  simp [TraceID, TraceWith, ctxValue_withValue_self]

/-- `SpanWith` does not change `TraceID` (distinct solu keys). -/
theorem TraceID_SpanWith (ctx : Ctx) (s : String) :
    TraceID (SpanWith ctx s) = TraceID ctx := by
  simp only [TraceID, SpanWith]
  rw [ctxValue_withValue_ne]
  intro hh
  exact CtxKey.noConfusion hh

/-- `SpanID` reads back the id attached by `SpanWith`. -/
theorem SpanID_SpanWith (ctx : Ctx) (s : String) :
    SpanID (SpanWith ctx s) = s := by
  simp [SpanID, SpanWith, ctxValue_withValue_self]

/-- `TraceWith` does not change `SpanID` (distinct solu keys). -/
theorem SpanID_TraceWith (ctx : Ctx) (t : String) :
    SpanID (TraceWith ctx t) = SpanID ctx := by
  simp only [SpanID, TraceWith]
  rw [ctxValue_withValue_ne]
  intro hh
  exact CtxKey.noConfusion hh

/-! Claim theorems. -/

/-- C1: base- and connection-context construction are a left fold of
`contextStep` over the hook list in registration order (the base fold
starting from a fresh root stamped with the startup token); at every step a
candidate passing `isValidContext` against the startup timestamp becomes the
new accumulator and a failing candidate leaves the accumulator unchanged; in
particular for hooks [h1, h2, h3] whose candidates are all valid the result
is h3 (h2 (h1 initial)). -/
theorem C1_hook_fold (st : Int) (hooks : List ContextHook) (ctx init c1 c2 c3 : Ctx)
    (h1 h2 h3 : ContextHook)
    (e1 : h1 init = some c1) (v1 : isValidContext (some c1) [st] = true)
    (e2 : h2 c1 = some c2) (v2 : isValidContext (some c2) [st] = true)
    (e3 : h3 c2 = some c3) (v3 : isValidContext (some c3) [st] = true) :
    baseContext st hooks =
      runHooks st hooks (withValue ctxBackground CtxKey.startupContextKeyVal (CtxVal.intVal st)) ∧
    connContext st hooks ctx = List.foldl (contextStep st) ctx hooks ∧
    (∀ (fn : ContextHook) (c : Ctx),
        isValidContext (fn c) [st] = false → contextStep st c fn = c) ∧
    runHooks st [h1, h2, h3] init = c3 := by
  refine ⟨rfl, rfl, ?_, ?_⟩
  · intro fn c hinv
    unfold contextStep
    cases hfc : fn c with
    | none => rfl
    | some c' =>
      rw [hfc] at hinv
      simp [hinv]
  · simp [runHooks, List.foldl, contextStep, e1, e2, e3, v1, v2, v3]

/-- Hook used by the C1 witness: attach one more flag value. -/
def hookW : ContextHook := fun c => some (withValue c .ctxKeyTypeVal (.boolVal true))

/-- Initial context for the C1 witness: root stamped with token 3. -/
def initW : Ctx := withValue ctxBackground .startupContextKeyVal (.intVal 3)

/-- First accumulator of the C1 witness fold. -/
def c1W : Ctx := withValue initW .ctxKeyTypeVal (.boolVal true)

/-- Second accumulator of the C1 witness fold. -/
def c2W : Ctx := withValue c1W .ctxKeyTypeVal (.boolVal true)

/-- Third accumulator of the C1 witness fold. -/
def c3W : Ctx := withValue c2W .ctxKeyTypeVal (.boolVal true)

/-- C1 witness: with startup token 3 and three valid hooks the fold output
is the third hook's candidate, i.e. h (h (h initial)). -/
theorem C1_hook_fold_witness :
    isValidContext (some c1W) [3] = true ∧
    runHooks 3 [hookW, hookW, hookW] initW = c3W :=
  ⟨by decide,
    (C1_hook_fold 3 [] initW initW c1W c2W c3W hookW hookW hookW rfl (by decide)
      rfl (by decide) rfl (by decide)).2.2.2⟩

/-- C2: evidence against the claim as written. In the source,
`ctxMetricKey`, `ctxTraceKey` and `ctxLogKey` are all the zero value of the
one empty struct type `ctxKeyType`, so as context keys they are equal under
Go interface equality: `EnableMetric`'s attachment is read back by
`hasEnabledTrace` (first conjunct), and an `EnableLog` after a
`DisableTrace` turns the trace predicate back on (second conjunct), while a
fresh context reads false (third conjunct). The claim's independence of the
three flags therefore fails on the code. -/
theorem C2_flag_key_collision :
    hasEnabledTrace (EnableMetric ctxBackground) = true ∧
    hasEnabledTrace (EnableLog (DisableTrace (EnableTrace ctxBackground))) = true ∧
    hasEnabledTrace ctxBackground = false := by
  decide

/-- C3: `isAborted` is true exactly when a non-nil abort value with non-zero
status is attached; a context with no abort attachment reads false; and
`AbortWithStatusReason ctx s r` is aborted iff s is non-zero. -/
theorem C3_isAborted_spec (ctx : Ctx) (s : Int) (r : String) :
    (isAborted ctx = true ↔
      ∃ a : AbortValue, ctxValue ctx CtxKey.abortContextKeyVal =
          some (CtxVal.abortVal (some a)) ∧ a.status ≠ 0) ∧
    (ctxValue ctx CtxKey.abortContextKeyVal = none → isAborted ctx = false) ∧
    (isAborted (AbortWithStatusReason ctx s r) = true ↔ s ≠ 0) := by
  refine ⟨?_, ?_, ?_⟩
  · unfold isAborted
    cases hv : ctxValue ctx CtxKey.abortContextKeyVal with
    | none => simp
    | some v =>
      cases v with
      | boolVal b => simp
      | abortVal a =>
        cases a with
        | none => simp
        | some av => simp
      | intVal n => simp
      | strVal s2 => simp
  · intro hnone
    unfold isAborted
    rw [hnone]
  · unfold isAborted AbortWithStatusReason
    rw [ctxValue_withValue_self]
    simp

/-- C3 witness: a concrete non-zero abort is aborted and the fresh context
is not. -/
theorem C3_isAborted_witness :
    isAborted (AbortWithStatusReason ctxBackground 7 "x") = true ∧
    isAborted ctxBackground = false :=
  ⟨(C3_isAborted_spec ctxBackground 7 "x").2.2.mpr (by decide),
    (C3_isAborted_spec ctxBackground 7 "x").2.1 rfl⟩

/-- C9: `Redirect ctx s p` attaches the abort value with status s, reason p
and redirect true; in particular `Redirect ctx 302 "/x"` carries
redirect = true and reason = "/x". -/
theorem C9_Redirect_spec (ctx : Ctx) (s : Int) (p : String) :
    ctxValue (Redirect ctx s p) CtxKey.abortContextKeyVal =
      some (CtxVal.abortVal (some ⟨s, p, true⟩)) ∧
    ctxValue (Redirect ctxBackground 302 "/x") CtxKey.abortContextKeyVal =
      some (CtxVal.abortVal (some ⟨302, "/x", true⟩)) :=
  ⟨ctxValue_withValue_self ctx CtxKey.abortContextKeyVal
      (CtxVal.abortVal (some ⟨s, p, true⟩)), by decide⟩

/-- C4: `mergeTrace` returns the context unchanged on a nil response, an
absent traceparent header, or a parse failure; on a successful parse the
trace id is adopted only when the context's trace id is empty and the span
id only when the context's span id is empty, never overwriting a non-empty
value. -/
theorem C4_mergeTrace_spec (parse : String → Option (String × String))
    (ctx : Ctx) (res : Response) (tid sid : String) :
    mergeTrace parse ctx none = ctx ∧
    (headerGet res.header TraceparentHeader = "" →
      mergeTrace parse ctx (some res) = ctx) ∧
    (headerGet res.header TraceparentHeader ≠ "" →
      parse (headerGet res.header TraceparentHeader) = none →
      mergeTrace parse ctx (some res) = ctx) ∧
    (headerGet res.header TraceparentHeader ≠ "" →
      parse (headerGet res.header TraceparentHeader) = some (tid, sid) →
      TraceID (mergeTrace parse ctx (some res)) =
        (if TraceID ctx = "" then tid else TraceID ctx) ∧
      SpanID (mergeTrace parse ctx (some res)) =
        (if SpanID ctx = "" then sid else SpanID ctx)) := by
  refine ⟨rfl, ?_, ?_, ?_⟩
  · intro h
    simp [mergeTrace, h]
  · intro h hp
    simp [mergeTrace, h, hp]
  · intro h hp
    simp only [mergeTrace, if_neg h, hp]
    by_cases ht : TraceID ctx = ""
    · by_cases hs : SpanID ctx = ""
      · simp [ht, hs, TraceID_TraceWith, TraceID_SpanWith, SpanID_TraceWith,
          SpanID_SpanWith]
      · simp [ht, hs, TraceID_TraceWith, TraceID_SpanWith, SpanID_TraceWith,
          SpanID_SpanWith]
    · by_cases hs : SpanID ctx = ""
      · simp [ht, hs, TraceID_TraceWith, TraceID_SpanWith, SpanID_TraceWith,
          SpanID_SpanWith]
      · simp [ht, hs, TraceID_TraceWith, TraceID_SpanWith, SpanID_TraceWith,
          SpanID_SpanWith]

/-- Parser for the C4 witness: accepts one fixed header value. -/
def parseW : String → Option (String × String) :=
  fun s => if s = "00-b-c-01" then some ("B", "C") else none

/-- Response for the C4 witness, carrying the fixed traceparent header. -/
def resW : Response := ⟨200, [("traceparent", "00-b-c-01")], none⟩

/-- C4 witness: with an existing trace id "A" the merge keeps "A"; with no
trace id the merge adopts the parsed "B". -/
theorem C4_mergeTrace_witness :
    headerGet resW.header TraceparentHeader ≠ "" ∧
    TraceID (mergeTrace parseW (TraceWith ctxBackground "A") (some resW)) = "A" ∧
    TraceID (mergeTrace parseW ctxBackground (some resW)) = "B" := by
  refine ⟨by decide, ?_, ?_⟩
  · have h := (C4_mergeTrace_spec parseW (TraceWith ctxBackground "A") resW "B" "C").2.2.2
      (by decide) (by decide)
    rw [h.1]
    decide
  · have h := (C4_mergeTrace_spec parseW ctxBackground resW "B" "C").2.2.2
      (by decide) (by decide)
    rw [h.1]
    decide
/-- C5: `isValidContext ctx ts` is false exactly when the context is nil, no
startup value is attached, the attached value is not a positive integer
token, or an expected timestamp is supplied and the token differs from it;
in every other case it is true. -/
theorem C5_isValidContext_spec (octx : Option Ctx) (ts : List Int) :
    isValidContext octx ts = false ↔
      octx = none ∨
      ∃ ctx, octx = some ctx ∧
        (ctxValue ctx CtxKey.startupContextKeyVal = none ∨
         (∃ v, ctxValue ctx CtxKey.startupContextKeyVal = some v ∧
            ∀ n : Int, v = CtxVal.intVal n → n ≤ 0) ∨
         (∃ n t rest, ctxValue ctx CtxKey.startupContextKeyVal =
              some (CtxVal.intVal n) ∧ 0 < n ∧ ts = t :: rest ∧ n ≠ t)) := by
  cases octx with
  | none =>
    constructor
    · intro _
      exact Or.inl rfl
    · intro _
      rfl
  | some ctx =>
    cases hv : ctxValue ctx CtxKey.startupContextKeyVal with
    | none =>
      have hval : isValidContext (some ctx) ts = false := by
        unfold isValidContext
        simp only [hv]
      rw [hval]
      constructor
      · intro _
        exact Or.inr ⟨ctx, rfl, Or.inl hv⟩
      · intro _
        rfl
    | some v =>
      cases v with
      | intVal n =>
        by_cases hn : n ≤ 0
        · have hval : isValidContext (some ctx) ts = false := by
            unfold isValidContext
            simp only [hv, if_pos hn]
          rw [hval]
          constructor
          · intro _
            refine Or.inr ⟨ctx, rfl, Or.inr (Or.inl ⟨CtxVal.intVal n, hv, ?_⟩)⟩
            intro m hm
            injection hm with hm2
            rw [← hm2]
            exact hn
          · intro _
            rfl
        · cases ts with
          | nil =>
            have hval : isValidContext (some ctx) [] = true := by
              unfold isValidContext
              simp only [hv, if_neg hn]
            rw [hval]
            constructor
            · intro hf
              exact Bool.noConfusion hf
            · rintro (h0 | ⟨ctx2, hctx2, hbad⟩)
              · exact Option.noConfusion h0
              · obtain rfl : ctx = ctx2 := Option.some.inj hctx2
                rcases hbad with hnone | ⟨v2, hv2, hle⟩ | ⟨m, t2, rest2, hm, hpos, hcons, hne⟩
                · rw [hv] at hnone
                  exact Option.noConfusion hnone
                · rw [hv] at hv2
                  have hv2' : CtxVal.intVal n = v2 := Option.some.inj hv2
                  exact absurd (hle n hv2'.symm) hn
                · exact List.noConfusion hcons
          | cons t rest =>
            have hval : isValidContext (some ctx) (t :: rest) = decide (n = t) := by
              unfold isValidContext
              simp only [hv, if_neg hn]
            rw [hval]
            constructor
            · intro hf
              refine Or.inr ⟨ctx, rfl, Or.inr (Or.inr ⟨n, t, rest, hv, ?_, rfl,
                of_decide_eq_false hf⟩)⟩
              omega
            · rintro (h0 | ⟨ctx2, hctx2, hbad⟩)
              · exact Option.noConfusion h0
              · obtain rfl : ctx = ctx2 := Option.some.inj hctx2
                rcases hbad with hnone | ⟨v2, hv2, hle⟩ | ⟨m, t2, rest2, hm, hpos, hcons, hne⟩
                · rw [hv] at hnone
                  exact Option.noConfusion hnone
                · rw [hv] at hv2
                  have hv2' : CtxVal.intVal n = v2 := Option.some.inj hv2
                  exact absurd (hle n hv2'.symm) hn
                · rw [hv] at hm
                  have hm' : CtxVal.intVal n = CtxVal.intVal m := Option.some.inj hm
                  injection hm' with hm2
                  injection hcons with hc1 hc2
                  rw [← hm2] at hne
                  rw [← hc1] at hne
                  exact decide_eq_false hne
      | boolVal b =>
        have hval : isValidContext (some ctx) ts = false := by
          unfold isValidContext
          simp only [hv]
        rw [hval]
        constructor
        · intro _
          exact Or.inr ⟨ctx, rfl, Or.inr (Or.inl ⟨CtxVal.boolVal b, hv,
            fun m hm => CtxVal.noConfusion hm⟩)⟩
        · intro _
          rfl
      | abortVal a =>
        have hval : isValidContext (some ctx) ts = false := by
          unfold isValidContext
          simp only [hv]
        rw [hval]
        constructor
        · intro _
          exact Or.inr ⟨ctx, rfl, Or.inr (Or.inl ⟨CtxVal.abortVal a, hv,
            fun m hm => CtxVal.noConfusion hm⟩)⟩
        · intro _
          rfl
      | strVal s =>
        have hval : isValidContext (some ctx) ts = false := by
          unfold isValidContext
          simp only [hv]
        rw [hval]
        constructor
        · intro _
          exact Or.inr ⟨ctx, rfl, Or.inr (Or.inl ⟨CtxVal.strVal s, hv,
            fun m hm => CtxVal.noConfusion hm⟩)⟩
        · intro _
          rfl

/-- C6: `Do` with a nil request fails with "invalid request" and no
response, and `DoClient` fails with "invalid request" on a nil request and
"invalid client" on a nil client; the result is the fixed error pair for
every possible client function, so no HTTP call contributes to it. -/
theorem C6_nil_guards (tpv : Ctx → String) (ctx : Ctx) (defaultClient : Client)
    (ocl : Option Client) (req : Request) :
    Do tpv defaultClient ctx none = (none, some "invalid request") ∧
    DoClient tpv ctx none ocl = (none, some "invalid request") ∧
    DoClient tpv ctx (some req) none = (none, some "invalid client") :=
  ⟨rfl, rfl, rfl⟩

/-- C7: the outbound wrapper leaves the request untouched when tracing is
not enabled or a traceparent header is already present; when tracing is
enabled and the header is absent it writes exactly the traceparent header
(to the collaborator-supplied value) and changes no other header; and
`doWithClient` passes exactly that request to the client. -/
theorem C7_trace_header_injection (tpv : Ctx → String) (ctx : Ctx) (req : Request)
    (client : Client) :
    (hasEnabledTrace ctx = false → injectTraceHeader tpv ctx req = req) ∧
    (headerGet req.header TraceparentHeader ≠ "" →
      injectTraceHeader tpv ctx req = req) ∧
    (hasEnabledTrace ctx = true → headerGet req.header TraceparentHeader = "" →
      headerGet (injectTraceHeader tpv ctx req).header TraceparentHeader = tpv ctx ∧
      ∀ k, k ≠ TraceparentHeader →
        headerGet (injectTraceHeader tpv ctx req).header k = headerGet req.header k) ∧
    doWithClient tpv ctx (some req) (some client) =
      client (injectTraceHeader tpv ctx req) := by
  refine ⟨?_, ?_, ?_, rfl⟩
  · intro h
    simp [injectTraceHeader, h]
  · intro h
    simp [injectTraceHeader, h]
  · intro he hg
    have hinj : injectTraceHeader tpv ctx req =
        { req with header := headerSet req.header TraceparentHeader (tpv ctx) } := by
      simp [injectTraceHeader, he, hg]
    rw [hinj]
    constructor
    · exact headerGet_headerSet_self req.header TraceparentHeader (tpv ctx)
    · intro k hk
      exact headerGet_headerSet_ne req.header TraceparentHeader k (tpv ctx) hk

/-- Traceparent value function for the C7 witness. -/
def tpvW : Ctx → String := fun _ => "00-b-c-01"

/-- Request for the C7 witness: no headers yet. -/
def reqW7 : Request := ⟨"GET", "example.com", "/p", []⟩

/-- Client for the C7 witness: echoes the request it received inside the
response. -/
def clientW : Client := fun r => (some ⟨200, [], some r⟩, none)

/-- C7 witness: with tracing enabled and no traceparent header present, the
injected request carries the collaborator's traceparent value. -/
theorem C7_trace_header_injection_witness :
    hasEnabledTrace (EnableTrace ctxBackground) = true ∧
    headerGet reqW7.header TraceparentHeader = "" ∧
    headerGet (injectTraceHeader tpvW (EnableTrace ctxBackground) reqW7).header
        TraceparentHeader = tpvW (EnableTrace ctxBackground) :=
  ⟨by decide, rfl,
    ((C7_trace_header_injection tpvW (EnableTrace ctxBackground) reqW7 clientW).2.2.1
      (by decide) rfl).1⟩

/-- C8: `metricLabels` is none when both the request and the response (or
its originating request) are nil; otherwise, using the response's
originating request as fallback, it is exactly the 5 labels method, host,
path, decimal status and decimal whole milliseconds; on the spec's example
it is exactly ["GET", "example.com", "/p", "200", "150"]. -/
theorem C8_metricLabels_spec (req : Request) (res : Response) (dur : Int) :
    metricLabels none none dur = none ∧
    (res.request = none → metricLabels none (some res) dur = none) ∧
    (res.request = some req → metricLabels none (some res) dur =
      some [req.method, req.host, req.urlPath, toString res.statusCode,
        toString (durationMilliseconds dur)]) ∧
    metricLabels (some req) (some res) dur =
      some [req.method, req.host, req.urlPath, toString res.statusCode,
        toString (durationMilliseconds dur)] ∧
    metricLabels (some (Request.mk "GET" "example.com" "/p" []))
        (some (Response.mk 200 [] none)) 150000000 =
      some ["GET", "example.com", "/p", "200", "150"] := by
  refine ⟨rfl, ?_, ?_, rfl, by decide⟩
  · intro h
    simp [metricLabels, h]
  · intro h
    simp [metricLabels, h]

/-- Response for the C8 witness: nil request of its own but an originating
request to fall back to. -/
def resW8 : Response := ⟨404, [], some ⟨"POST", "api.example.com", "/q", []⟩⟩

/-- C8 witness: the fallback to the response's originating request produces
the 5 concrete labels, with 2 ms from 2000000 ns. -/
theorem C8_metricLabels_witness :
    resW8.request = some (Request.mk "POST" "api.example.com" "/q" []) ∧
    metricLabels none (some resW8) 2000000 =
      some ["POST", "api.example.com", "/q", "404", "2"] :=
  ⟨rfl, (C8_metricLabels_spec (Request.mk "POST" "api.example.com" "/q" [])
      resW8 2000000).2.2.1 rfl⟩

/-- C10: with a non-nil request and a nil response the labels are still
produced, the status label is "0", and the rest come from the request and
the duration as usual. -/
theorem C10_metricLabels_nil_response (req : Request) (dur : Int) :
    metricLabels (some req) none dur =
      some [req.method, req.host, req.urlPath, "0",
        toString (durationMilliseconds dur)] := rfl
